import Mathlib

/-!
Verification development for the ShopperOS personalization API
(`app/services/embeddings.py` and the routers `catalog.py`, `alternatives.py`,
`discovery.py`, `gifts.py`).

The Python code is shallowly embedded: float vectors become lists of rationals
(`Vec`), the numpy dot product becomes `dot`, `np.argsort` is modelled as a
stable ascending sort (the numpy default quicksort leaves the order of equal keys
unspecified; the stable sort is the deterministic refinement used throughout),
and the process-wide `EmbeddingService` singleton state becomes an explicit
`Svc` record threaded through the operations.  The normalization step
`v / (np.linalg.norm(v) + 1e-8)` involves a real square root and is modelled
separately over `ℝ` (`rnormalize`); everything before it stays in `ℚ` and is
executable.

Presentation-only formatting (`add_image_url`, the `"{:.0%}"` affinity string
of `gifts.py`) is out of scope per the specification and is not modelled.
-/

namespace ShopperOS

/-- Embedding/taste vectors: `np.ndarray` of floats, modelled as lists of `ℚ`. -/
abbrev Vec := List ℚ

deriving instance DecidableEq for Except

/-- Python `str(x).lstrip("0")`: drop every leading zero character.
Used by `get_product`, `get_embedding` and the id-normalization spots in the
routers (`catalog.py` line 44, `alternatives.py` line 37, `gifts.py` lines
63 and 86). -/
def lstrip0 (s : String) : String := ⟨s.data.dropWhile (· == '0')⟩

/-- NumPy `np.dot` / `@` on two equal-length vectors. -/
def dot (a b : Vec) : ℚ := (List.zipWith (· * ·) a b).sum

/-- Componentwise vector sum (`np.ndarray +`). -/
def vecAdd (a b : Vec) : Vec := List.zipWith (· + ·) a b

/-- Componentwise vector difference (`np.ndarray -`). -/
def vecSub (a b : Vec) : Vec := List.zipWith (· - ·) a b

/-- Scalar multiple of a vector. -/
def vecSmul (c : ℚ) (v : Vec) : Vec := v.map (fun x => c * x)

/-- NumPy `np.mean(vs, axis=0)` for a nonempty list of equal-length vectors:
componentwise sum divided by the count.  `np.mean([])` is a domain error in
the source; the `[]` case returns `[]` and is never reached by the embedded
call sites, which guard for emptiness first. -/
def vecMean (vs : List Vec) : Vec :=
  match vs with
  | [] => []
  | v :: rest => vecSmul (1 / (vs.length : ℚ)) (rest.foldl vecAdd v)

/-- Sum of squares of a rational vector; `np.linalg.norm v = Real.sqrt (sumSq v)`. -/
def sumSq (v : Vec) : ℚ := (v.map (fun x => x * x)).sum

/-- A row of `products_extended.parquet` as exposed by
`EmbeddingService.get_product` (`embeddings.py` lines 123-139).  The
`image_url`/`product_url` fields are presentation-only and omitted. -/
structure Product where
  id : String
  name : String
  category : String
  color : String
  price : ℚ
  brand : String
  deriving DecidableEq

/-- One entry of `popular_products.pkl`: either a bare product id or a dict
`{"product_id": ..., "affinity_score": ...}` whose score key may be absent
(`catalog.py` lines 43 and 47). -/
inductive PopEntry where
  | plain (pid : String)
  | entry (pid : String) (score : Option ℚ)
  deriving DecidableEq

/-- The product id carried by a popularity entry (`item["product_id"] if
isinstance(item, dict) else item`). -/
def popPid : PopEntry → String
  | .plain p => p
  | .entry p _ => p

/-- The affinity score assigned to a popularity entry by the catalog cold-start
path: `item.get("affinity_score", 0.5) if isinstance(item, dict) else 0.5`. -/
def popScore : PopEntry → ℚ
  | .plain _ => 1 / 2
  | .entry _ s => s.getD (1 / 2)

/-- One entry of the `"7d"` trending list: a bare id string or a dict carrying
a `product_id` key (`discovery.py` line 75). -/
inductive TrendEntry where
  | tstr (pid : String)
  | tdict (pid : String)
  deriving DecidableEq

/-- The id used by the trending section:
`item if isinstance(item, str) else item.get("product_id", item)`. -/
def trendPid : TrendEntry → String
  | .tstr p => p
  | .tdict p => p

/-- Outcome of `supabase.table("user_taste_vectors").select(...).execute()`:
either the call raises (caught at line 78 of `embeddings.py`) or it returns a
`result.data` list of rows, each row holding a taste vector. -/
inductive SupaResp where
  | err
  | rows (data : List Vec)

/-- The Supabase client, reduced to the two calls the service makes:
`fetch` models the `select ... eq user_id ... execute` round trip, `upsertOk`
tells whether the `upsert ... execute` of `save_user_taste_vector` succeeds
(false = the call raises, caught at line 109). -/
structure SupaClient where
  fetch : String → SupaResp
  upsertOk : String → Bool

/-- The loaded `EmbeddingService` singleton state (`embeddings.py` `_load`):
embedding matrix, id↔row mappings, the products table, demo taste vectors, the
in-process cache `user_taste_vectors_cache`, the popularity and trending lists
and the optional Supabase client (`None` when credentials are missing).

The routers also read an attribute `svc.user_taste_vectors` that `_load`
never defines (its nearest existing attribute is the cache written by
`save_user_taste_vector`); the router embeddings below model that read as a
lookup in `cache` and the discrepancy is settled by the C2 theorem. -/
structure Svc where
  embeddings : List Vec
  id_to_idx : List (String × ℕ)
  idx_to_id : List String
  products : List Product
  demo_taste_vectors : List (String × Vec)
  cache : List (String × Vec)
  popular_products : List PopEntry
  trending7d : List TrendEntry
  supabase : Option SupaClient

/-- Method `EmbeddingService.get_product` (`embeddings.py` lines 123-139): strip
leading zeros, select the first matching row of the products table.  The
loaded table has its `id` column already stripped (`_load` line 43). -/
def get_product (svc : Svc) (product_id : String) : Option Product :=
  svc.products.find? (fun p => p.id == lstrip0 product_id)

/-- Method `EmbeddingService.get_embedding` (`embeddings.py` lines 141-147): strip
leading zeros, translate through `id_to_idx`, read the embedding row. -/
def get_embedding (svc : Svc) (product_id : String) : Option Vec :=
  (svc.id_to_idx.lookup (lstrip0 product_id)).bind (fun i => svc.embeddings.get? i)

/-- Method `EmbeddingService.get_user_taste_vector` (`embeddings.py` lines 64-85):
tier (1) the in-process cache, tier (2) Supabase (any raised error or an empty
`result.data` falls through; a hit is also written into the cache), tier (3)
the demo taste vectors, tier (4) absent (`None`).  Returns the possibly
updated state together with the result. -/
def get_user_taste_vector (svc : Svc) (user_id : String) : Svc × Option Vec :=
  match svc.cache.lookup user_id with
  | some v => (svc, some v)
  | none =>
    let fromSupa : Option Vec :=
      match svc.supabase with
      | some c =>
        match c.fetch user_id with
        | .rows (v :: _) => some v
        | _ => none
      | none => none
    match fromSupa with
    | some v => ({ svc with cache := (user_id, v) :: svc.cache }, some v)
    | none => (svc, svc.demo_taste_vectors.lookup user_id)

/-- Method `EmbeddingService.save_user_taste_vector` (`embeddings.py` lines 87-111):
no client → log and return `False`; otherwise upsert, and only when the upsert
call does not raise is the cache updated and `True` returned. -/
def save_user_taste_vector (svc : Svc) (user_id : String) (v : Vec) : Svc × Bool :=
  match svc.supabase with
  | none => (svc, false)
  | some c =>
    if c.upsertOk user_id then
      ({ svc with cache := (user_id, v) :: svc.cache }, true)
    else (svc, false)

/-- Whether the external persistence call of `save_user_taste_vector`
succeeds: a configured client whose upsert does not raise. -/
def persistOk (svc : Svc) (user_id : String) : Bool :=
  match svc.supabase with
  | none => false
  | some c => c.upsertOk user_id

/-- The comparison key order underlying the stable model of
`np.argsort(scores)`: ascending score, equal scores kept in ascending
index order (stability on `List.range`). -/
def argRel (s : List ℚ) (i j : ℕ) : Prop :=
  s.getD i 0 < s.getD j 0 ∨ (s.getD i 0 = s.getD j 0 ∧ i ≤ j)

instance (s : List ℚ) : DecidableRel (argRel s) := fun i j => by
  unfold argRel; exact inferInstance

instance (s : List ℚ) : IsTotal ℕ (argRel s) where
  total i j := by
    unfold argRel
    rcases lt_trichotomy (s.getD i 0) (s.getD j 0) with h | h | h
    · exact Or.inl (Or.inl h)
    · rcases Nat.le_total i j with hij | hij
      · exact Or.inl (Or.inr ⟨h, hij⟩)
      · exact Or.inr (Or.inr ⟨h.symm, hij⟩)
    · exact Or.inr (Or.inl h)

instance (s : List ℚ) : IsTrans ℕ (argRel s) where
  trans i j k hij hjk := by
    unfold argRel at *
    rcases hij with h1 | ⟨h1, h1'⟩ <;> rcases hjk with h2 | ⟨h2, h2'⟩
    · exact Or.inl (h1.trans h2)
    · exact Or.inl (h2 ▸ h1)
    · exact Or.inl (h1 ▸ h2)
    · exact Or.inr ⟨h1.trans h2, h1'.trans h2'⟩

/-- Model of `np.argsort(scores)` under the stable-sort reading: the indices
`0, …, n-1` sorted by ascending score, ties in ascending index order. -/
def argsort (s : List ℚ) : List ℕ :=
  List.insertionSort (argRel s) (List.range s.length)

/-- Method `EmbeddingService.search_similar` (`embeddings.py` lines 117-121):
`scores = embeddings @ q`, `top_k = np.argsort(scores)[-k:][::-1]`, returning
`(top_k, scores[top_k])`.  Note the Python slice `[-k:]`: for `k = 0` it is
the whole array, not the empty one. -/
def search_similar (svc : Svc) (q : Vec) (k : ℕ) : List ℕ × List ℚ :=
  let scores := svc.embeddings.map (fun e => dot e q)
  let sorted := argsort scores
  let top := (if k = 0 then sorted else sorted.drop (sorted.length - k)).reverse
  (top, top.map (fun i => scores.getD i 0))

/-- The `(index, score)` pairs walked by every router loop
(`for i, idx in enumerate(indices)` with `scores[i]`). -/
def searchPairs (svc : Svc) (q : Vec) (k : ℕ) : List (ℕ × ℚ) :=
  (search_similar svc q k).1.zip (search_similar svc q k).2

/-- The id used in place of `svc.idx_to_id[idx]`; out-of-range indices (never
produced when the id mapping covers every embedding row) give `""`. -/
def idAt (svc : Svc) (idx : ℕ) : String := svc.idx_to_id.getD idx ""

/-- The Python guard `if price_min and prod["price"] < price_min` as a
predicate on the candidate price: `None` and `0` are falsy, so the lower
bound only filters when it is present and nonzero
(`catalog.py` line 65, `gifts.py` line 176). -/
def priceLow (pm : Option ℚ) (price : ℚ) : Bool :=
  match pm with
  | none => false
  | some m => decide (m ≠ 0) && decide (price < m)

/-- The Python guard `if price_max and prod["price"] > price_max`
(`catalog.py` line 67, `gifts.py` line 178). -/
def priceHigh (pM : Option ℚ) (price : ℚ) : Bool :=
  match pM with
  | none => false
  | some M => decide (M ≠ 0) && decide (M < price)

/-- The Python guard `if category_filter and prod["category"] != category_filter`
(`catalog.py` line 63): the empty string is falsy. -/
def catMismatch (catFilter : Option String) (cat : String) : Bool :=
  match catFilter with
  | none => false
  | some c => !c.isEmpty && cat != c

/-- A result item: the product dict plus its `affinity_score` key, which some
paths never set (modelled as `none`). -/
abbrev RecItem := Product × Option ℚ

/-- The cold-start loop of `get_personalized_catalog` (`catalog.py` lines
41-49): walk `popular_products[:k]`, strip the id, skip entries whose product
is missing, attach the list-provided or neutral affinity score. -/
def catalogColdLoop (svc : Svc) : List PopEntry → List RecItem
  | [] => []
  | e :: rest =>
    match get_product svc (lstrip0 (popPid e)) with
    | some p => (p, some (popScore e)) :: catalogColdLoop svc rest
    | none => catalogColdLoop svc rest

/-- The personalized selection loop of `get_personalized_catalog`
(`catalog.py` lines 56-75): category/price filters, append with score, stop
once `k` items are accepted (the `len(products) >= k` check runs after each
append, so `kLeft ≤ 1` stops). -/
def catalogLoop (svc : Svc) (catFilter : Option String) (lowG highG : ℚ → Bool) :
    List (ℕ × ℚ) → ℕ → List RecItem
  | [], _ => []
  | (idx, score) :: rest, kLeft =>
    match get_product svc (idAt svc idx) with
    | none => catalogLoop svc catFilter lowG highG rest kLeft
    | some p =>
      if catMismatch catFilter p.category then catalogLoop svc catFilter lowG highG rest kLeft
      else if lowG p.price then catalogLoop svc catFilter lowG highG rest kLeft
      else if highG p.price then catalogLoop svc catFilter lowG highG rest kLeft
      else if kLeft ≤ 1 then [(p, some score)]
      else (p, some score) :: catalogLoop svc catFilter lowG highG rest (kLeft - 1)

/-- Result shape of `/get_personalized_catalog`. -/
structure CatalogResult where
  products : List RecItem
  is_cold_start : Bool
  deriving DecidableEq

/-- Endpoint `get_personalized_catalog` (`catalog.py` lines 27-77).  The branch reads
`user_id not in svc.user_taste_vectors`; `EmbeddingService` defines no such
attribute, and it is modelled by its nearest existing one, the in-process
cache (see the C2 theorem).  The unused `exclude_purchased` parameter is
dropped. -/
def get_personalized_catalog (svc : Svc) (user_id : String) (k : ℕ)
    (catFilter : Option String) (pm pM : Option ℚ) : CatalogResult :=
  match svc.cache.lookup user_id with
  | none => ⟨catalogColdLoop svc (svc.popular_products.take k), true⟩
  | some taste =>
    ⟨catalogLoop svc catFilter (priceLow pm) (priceHigh pM)
      (searchPairs svc taste (k * 3)) k, false⟩

/-- Endpoint `compute_taste_from_calibration` (`catalog.py` lines 80-113) up to and
excluding the float normalization step: empty `liked_ids` or no resolvable
liked id is an error dict; otherwise the mean of the resolved liked
embeddings, minus `0.3 ×` the mean of the resolved disliked embeddings when
`disliked_ids` is nonempty and at least one resolves.  The subsequent
`taste_vector / (np.linalg.norm(taste_vector) + 1e-8)` is modelled over `ℝ`
by `rnormalize` below. -/
def compute_taste_from_calibration (svc : Svc) (liked disliked : List String) :
    Except String Vec :=
  if liked.isEmpty then .error "Need at least one liked product"
  else
    let likedVectors := liked.filterMap (fun pid => get_embedding svc pid)
    if likedVectors.isEmpty then .error "No valid products found"
    else
      let t := vecMean likedVectors
      if disliked.isEmpty then .ok t
      else
        let dislikedVectors := disliked.filterMap (fun pid => get_embedding svc pid)
        if dislikedVectors.isEmpty then .ok t
        else .ok (vecSub t (vecSmul (3 / 10) (vecMean dislikedVectors)))

/-- An entry of the `alternatives` list built by `get_alternatives`
(`alternatives.py` lines 44-55): the product dict with its `similarity`
score and reason strings. -/
structure Alt where
  prod : Product
  similarity : ℚ
  reasons : List String
  deriving DecidableEq

/-- The reason strings of `get_alternatives` (`alternatives.py` lines 45-51). -/
def altReasons (sourceCat sourceColor : String) (p : Product) : List String :=
  let r1 := if p.category = sourceCat then ["Same style: " ++ sourceCat] else []
  let r2 := if p.color = sourceColor then ["Same color: " ++ sourceColor] else []
  if (r1 ++ r2).isEmpty then ["Similar style"] else r1 ++ r2

/-- The selection loop of `get_alternatives` (`alternatives.py` lines 33-58):
skip the seed product (compared against the zero-stripped requested id), skip
unknown products, attach similarity and reasons, stop at `k` accepted. -/
def altLoop (svc : Svc) (strippedId sourceCat sourceColor : String) :
    List (ℕ × ℚ) → ℕ → List Alt
  | [], _ => []
  | (idx, score) :: rest, kLeft =>
    let pid := idAt svc idx
    if pid == strippedId then altLoop svc strippedId sourceCat sourceColor rest kLeft
    else
      match get_product svc pid with
      | none => altLoop svc strippedId sourceCat sourceColor rest kLeft
      | some p =>
        if kLeft ≤ 1 then [⟨p, score, altReasons sourceCat sourceColor p⟩]
        else ⟨p, score, altReasons sourceCat sourceColor p⟩ ::
          altLoop svc strippedId sourceCat sourceColor rest (kLeft - 1)

/-- Endpoint `get_alternatives` (`alternatives.py` lines 7-63): explicit error dicts
when the seed product or its embedding is missing, otherwise the source
product together with its alternatives. -/
def get_alternatives (svc : Svc) (product_id : String) (k : ℕ) :
    Except String (Product × List Alt) :=
  match get_product svc product_id with
  | none => .error "Product not found"
  | some source =>
    match get_embedding svc product_id with
    | none => .error "No embedding for product"
    | some emb =>
      .ok (source, altLoop svc (lstrip0 product_id) source.category source.color
        (searchPairs svc emb (k * 2)) k)

/-- The fixed `exclude_categories` list of `get_gift_suggestions_for_user`
(`gifts.py` line 158). -/
def tabooCategories : List String := ["Underwear bottom", "Underwear Tights", "Socks"]

/-- A suggestion built by `get_gift_suggestions_for_user` (`gifts.py` lines
183-191): note `product_id` is the raw `idx_to_id` value, while category,
color and price come from the product record.  The percentage-formatted
reason string is presentation-only and omitted. -/
structure Sugg where
  product_id : String
  name : String
  category : String
  color : String
  price : ℚ
  affinity : ℚ
  deriving DecidableEq

/-- The selection loop of `get_gift_suggestions_for_user` (`gifts.py` lines
163-196): in order, skip unknown products, taboo categories, prices outside
the truthy bounds, and categories already accepted; stop at `k` accepted
(checked after each append). -/
def giftUserLoop (svc : Svc) (lowG highG : ℚ → Bool) :
    List (ℕ × ℚ) → ℕ → List String → List Sugg
  | [], _, _ => []
  | (idx, score) :: rest, kLeft, seenCats =>
    let pid := idAt svc idx
    match get_product svc pid with
    | none => giftUserLoop svc lowG highG rest kLeft seenCats
    | some p =>
      if p.category ∈ tabooCategories then giftUserLoop svc lowG highG rest kLeft seenCats
      else if lowG p.price then giftUserLoop svc lowG highG rest kLeft seenCats
      else if highG p.price then giftUserLoop svc lowG highG rest kLeft seenCats
      else if p.category ∈ seenCats then giftUserLoop svc lowG highG rest kLeft seenCats
      else if kLeft ≤ 1 then [⟨pid, p.name, p.category, p.color, p.price, score⟩]
      else ⟨pid, p.name, p.category, p.color, p.price, score⟩ ::
        giftUserLoop svc lowG highG rest (kLeft - 1) (p.category :: seenCats)

/-- Endpoint `get_gift_suggestions_for_user` (`gifts.py` lines 135-198).  A recipient
absent from `svc.user_taste_vectors` (modelled by the cache, see the C2
theorem) delegates to the empty-list path of `get_gift_suggestions`, whose
`DataFrame.sample` calls are randomized and outside this deterministic model:
that branch is `none`.  A present profile runs the selection loop over
`search_similar(taste, k*5)`. -/
def get_gift_suggestions_for_user (svc : Svc) (recipient_user_id : String)
    (k : ℕ) (pm pM : Option ℚ) : Option (List Sugg) :=
  match svc.cache.lookup recipient_user_id with
  | none => none
  | some taste =>
    some (giftUserLoop svc (priceLow pm) (priceHigh pM)
      (searchPairs svc taste (k * 5)) k [])

/-- One section of the discovery feed (`discovery.py`): fixed title and type,
and the items, whose `affinity_score` key only some paths set. -/
structure FeedSection where
  title : String
  sectionType : String
  products : List RecItem
  deriving DecidableEq

/-- Section 1 of the discovery feed, personalized path (`discovery.py` lines
26-32): the first five `search_similar(varied_taste, 10)` hits that resolve
to products, each with its score; no dedup, no break. -/
def discoverySec1Loop (svc : Svc) : List (ℕ × ℚ) → List RecItem
  | [] => []
  | (idx, score) :: rest =>
    match get_product svc (idAt svc idx) with
    | some p => (p, some score) :: discoverySec1Loop svc rest
    | none => discoverySec1Loop svc rest

/-- Section 1 of the discovery feed, cold-start path (`discovery.py` lines
35-38): `popular_products[:5]` resolved through `get_product` with NO
affinity score attached.  A dict entry reaches `get_product(str(dict))` and
never matches a product id, so it is modelled as an unresolvable lookup. -/
def discoverySec1Cold (svc : Svc) : List PopEntry → List RecItem
  | [] => []
  | e :: rest =>
    match (match e with
           | .plain pid => get_product svc pid
           | .entry _ _ => none) with
    | some p => (p, none) :: discoverySec1Cold svc rest
    | none => discoverySec1Cold svc rest

/-- The "Just For Today" products (`discovery.py` lines 17-38).  The
personalized branch perturbs the taste vector with `np.random.randn`-scaled
noise and renormalizes; the perturbed, renormalized query is injected as
`varied` (the randomness and the float square root live outside the model,
and every settled property holds for all `varied`). -/
def discoverySection1 (svc : Svc) (varied : Vec) (user_id : String) : List RecItem :=
  match svc.cache.lookup user_id with
  | some _ => discoverySec1Loop svc ((searchPairs svc varied 10).take 5)
  | none => discoverySec1Cold svc (svc.popular_products.take 5)

/-- Section 2 selection loop (`discovery.py` lines 53-63): skip ids already
seen (initially the ids of section 1), attach scores, record the raw id,
stop at 5 accepted. -/
def discoverySec2Loop (svc : Svc) : List (ℕ × ℚ) → ℕ → List String → List RecItem
  | [], _, _ => []
  | (idx, score) :: rest, kLeft, seen =>
    let pid := idAt svc idx
    if pid ∈ seen then discoverySec2Loop svc rest kLeft seen
    else
      match get_product svc pid with
      | none => discoverySec2Loop svc rest kLeft seen
      | some p =>
        if kLeft ≤ 1 then [(p, some score)]
        else (p, some score) :: discoverySec2Loop svc rest (kLeft - 1) (pid :: seen)

/-- The "New Arrivals in Your Style" products (`discovery.py` lines 46-63):
empty for cold-start users, otherwise plain taste-vector neighbors from
`search_similar(taste, 20)` excluding the ids used by section 1. -/
def discoverySection2 (svc : Svc) (user_id : String) (sec1Ids : List String) :
    List RecItem :=
  match svc.cache.lookup user_id with
  | none => []
  | some taste => discoverySec2Loop svc (searchPairs svc taste 20) 5 sec1Ids

/-- Section 3 selection loop (`discovery.py` lines 74-80): resolve trending
ids, no affinity score, stop at 5 accepted. -/
def discoverySec3Loop (svc : Svc) : List TrendEntry → ℕ → List RecItem
  | [], _ => []
  | e :: rest, kLeft =>
    match get_product svc (trendPid e) with
    | none => discoverySec3Loop svc rest kLeft
    | some p =>
      if kLeft ≤ 1 then [(p, none)]
      else (p, none) :: discoverySec3Loop svc rest (kLeft - 1)

/-- The "Trending" products (`discovery.py` lines 71-80): the first ten
entries of the 7-day trending list, resolved, capped at 5. -/
def discoverySection3 (svc : Svc) : List RecItem :=
  discoverySec3Loop svc (svc.trending7d.take 10) 5

/-- Endpoint `get_discovery_feed` (`discovery.py` lines 7-88): the three sections in
their fixed order with their fixed titles and types. -/
def get_discovery_feed (svc : Svc) (varied : Vec) (user_id : String) :
    List FeedSection :=
  let sec1 := discoverySection1 svc varied user_id
  [⟨"Just For Today", "personalized", sec1⟩,
   ⟨"New Arrivals in Your Style", "new_arrivals",
     discoverySection2 svc user_id (sec1.map (fun it => it.1.id))⟩,
   ⟨"Trending", "trending", discoverySection3 svc⟩]

/-- NumPy `np.linalg.norm v` over the reals: the square root of the sum of squares. -/
noncomputable def realNorm (v : List ℝ) : ℝ :=
  Real.sqrt ((v.map (fun x => x * x)).sum)

/-- The float normalization `v / (np.linalg.norm(v) + 1e-8)` shared by
`catalog.py` line 113, `gifts.py` line 80 and `discovery.py` line 24,
modelled over `ℝ` because of the square root. -/
noncomputable def rnormalize (v : Vec) : List ℝ :=
  v.map (fun x : ℚ => (x : ℝ) / (Real.sqrt ((sumSq v : ℚ) : ℝ) + 1e-8))

/-- The descending order the specification claims for `search_similar`
output: strictly higher score first, ties by ascending original row index. -/
def specOrd (s : List ℚ) (i j : ℕ) : Prop :=
  s.getD j 0 < s.getD i 0 ∨ (s.getD i 0 = s.getD j 0 ∧ i < j)

/-- The descending order `search_similar` actually produces under the stable
model of `np.argsort`: higher score first, ties by descending row index
(the `[::-1]` reversal also reverses the ascending-index tie order). -/
def codeOrd (s : List ℚ) (i j : ℕ) : Prop :=
  s.getD j 0 < s.getD i 0 ∨ (s.getD i 0 = s.getD j 0 ∧ j < i)

instance (s : List ℚ) : DecidableRel (specOrd s) := fun i j => by
  unfold specOrd; exact inferInstance

instance (s : List ℚ) : DecidableRel (codeOrd s) := fun i j => by
  unfold codeOrd; exact inferInstance

/-- A three-row index with a duplicated embedding: rows 0 and 1 tie on any
query aligned with them. -/
def svcTie : Svc := ⟨[[1, 0], [1, 0], [0, 1]], [], [], [], [], [], [], [], none⟩

/-- State with only a demo taste vector for `"demo_user"`: the lookup chain
of `get_user_taste_vector` resolves it at tier (3). -/
def svcDemoOnly : Svc := ⟨[], [], [], [], [("demo_user", [1])], [], [], [], none⟩

/-- State whose Supabase client is configured but whose upsert call raises. -/
def svcSaveFail : Svc :=
  ⟨[], [], [], [], [], [], [], [], some ⟨fun _ => .err, fun _ => false⟩⟩

/-- A one-product catalog row used by concrete instances below. -/
def prodW : Product := ⟨"1", "n", "Dress", "Red", 10, "b"⟩

/-- One-row index whose single embedding is the zero vector. -/
def svcZeroEmb : Svc := ⟨[[0, 0]], [("1", 0)], ["1"], [prodW], [], [], [], [], none⟩

/-- One-row index with a unit embedding. -/
def svcUnitEmb : Svc := ⟨[[1, 0]], [("1", 0)], ["1"], [prodW], [], [], [], [], none⟩

/-- One-row state with a cached taste profile for `"u"` and product `prodW`. -/
def svcGift : Svc := ⟨[[1]], [("1", 0)], ["1"], [prodW], [], [("u", [1])], [], [], none⟩

/-- State with one popularity entry resolving to `prodW` and no profiles. -/
def svcPop : Svc := ⟨[], [], [], [prodW], [], [], [.plain "1"], [], none⟩

/-- Two-row state for the alternatives witness: the seed `"01"` resolves to
row 0 and product `"1"`; `"2"` is the other row. -/
def svcAlt : Svc :=
  ⟨[[1, 0], [9/10, 1/10]], [("1", 0), ("2", 1)], ["1", "2"],
   [prodW, ⟨"2", "m", "Sweater", "Blue", 20, "b"⟩], [], [], [], [], none⟩

/-- C2: the spec's cold-start decision follows the full lookup chain of
`TasteProfileStore.get`; the router instead tests membership in
`svc.user_taste_vectors`, an attribute the service never defines (modelled by
its nearest existing attribute, the in-process cache), so a user whose taste
vector lives in the demo tier — which `get_user_taste_vector` resolves —
still takes the cold-start branch. -/
theorem catalog_cold_start_ignores_fallback_tiers :
    (get_user_taste_vector svcDemoOnly "demo_user").2 = some [1] ∧
    (get_personalized_catalog svcDemoOnly "demo_user" 5 none none none).is_cold_start = true :=
  ⟨rfl, rfl⟩

/-- C4: `compute_taste_from_calibration` returns its error dict exactly when
the liked list is empty or no liked id resolves to an embedding; with at
least one resolvable liked id the unresolvable ones are skipped and the
computation succeeds. -/
theorem calibration_error_iff (svc : Svc) (liked disliked : List String) :
    (∃ msg, compute_taste_from_calibration svc liked disliked = .error msg) ↔
    (liked = [] ∨ liked.filterMap (fun pid => get_embedding svc pid) = []) := by
  unfold compute_taste_from_calibration
  cases liked with
  | nil => simp
  | cons a l =>
    cases hfm : (a :: l).filterMap (fun pid => get_embedding svc pid) with
    | nil => simp [hfm]
    | cons v vs =>
      simp only [hfm, List.isEmpty_cons, Bool.false_eq_true, if_false,
        List.cons_ne_nil, or_self, iff_false, not_exists]
      intro msg h
      split at h
      · exact Except.noConfusion h
      · split at h <;> exact Except.noConfusion h

/-- C9 (amended): `save_user_taste_vector` updates the in-process cache
exactly when the external persistence call succeeds (a configured client
whose upsert does not raise); the returned flag reflects that same outcome,
and failure never raises — it returns `false`. -/
theorem save_cache_iff_persisted (svc : Svc) (user_id : String) (v : Vec) :
    (save_user_taste_vector svc user_id v).2 = persistOk svc user_id ∧
    (save_user_taste_vector svc user_id v).1.cache =
      (if persistOk svc user_id then (user_id, v) :: svc.cache else svc.cache) := by
  unfold save_user_taste_vector persistOk
  cases svc.supabase with
  | none => simp
  | some c => by_cases h : c.upsertOk user_id <;> simp [h]

/-- C9 counterexample: when the upsert raises, the flag is `false` and the
cache is NOT updated — the claim's "updates the cache regardless of whether
the external persistence call succeeds" fails. -/
theorem save_failure_not_cached :
    (save_user_taste_vector svcSaveFail "u1" [1]).2 = false ∧
    (save_user_taste_vector svcSaveFail "u1" [1]).1.cache.lookup "u1" = none :=
  ⟨rfl, rfl⟩

/-- C10: a price bound equal to `0` is falsy in the Python filter guards, so
both `get_personalized_catalog` and `get_gift_suggestions_for_user` behave
exactly as if the bound were absent. -/
theorem zero_price_bound_behaves_as_absent (svc : Svc) (user_id : String)
    (k : ℕ) (catFilter : Option String) (pm pM : Option ℚ) :
    get_personalized_catalog svc user_id k catFilter (some 0) pM =
      get_personalized_catalog svc user_id k catFilter none pM ∧
    get_personalized_catalog svc user_id k catFilter pm (some 0) =
      get_personalized_catalog svc user_id k catFilter pm none ∧
    get_gift_suggestions_for_user svc user_id k (some 0) pM =
      get_gift_suggestions_for_user svc user_id k none pM ∧
    get_gift_suggestions_for_user svc user_id k pm (some 0) =
      get_gift_suggestions_for_user svc user_id k pm none := by
  have hL : priceLow (some 0) = priceLow none := by
    funext p
    norm_num [priceLow]
  have hH : priceHigh (some 0) = priceHigh none := by
    funext p
    norm_num [priceHigh]
  refine ⟨?_, ?_, ?_, ?_⟩
  · unfold get_personalized_catalog
    rw [hL]
  · unfold get_personalized_catalog
    rw [hH]
  · unfold get_gift_suggestions_for_user
    rw [hL]
  · unfold get_gift_suggestions_for_user
    rw [hH]

theorem argsort_perm (s : List ℚ) : (argsort s).Perm (List.range s.length) :=
  List.perm_insertionSort (argRel s) (List.range s.length)

theorem argsort_sorted (s : List ℚ) : List.Sorted (argRel s) (argsort s) :=
  List.sorted_insertionSort (argRel s) (List.range s.length)

theorem argsort_nodup (s : List ℚ) : (argsort s).Nodup :=
  (argsort_perm s).symm.nodup (List.nodup_range s.length)

theorem argsort_length (s : List ℚ) : (argsort s).length = s.length :=
  ((argsort_perm s).length_eq).trans (List.length_range s.length)

theorem argsort_mem_lt (s : List ℚ) : ∀ i ∈ argsort s, i < s.length := fun _ hi =>
  List.mem_range.mp ((argsort_perm s).subset hi)

theorem search_similar_indices_lt (svc : Svc) (q : Vec) (k : ℕ) :
    ∀ i ∈ (search_similar svc q k).1, i < svc.embeddings.length := by
  intro i hi
  unfold search_similar at hi
  simp only [List.mem_reverse] at hi
  have hmem : i ∈ argsort (svc.embeddings.map (fun e => dot e q)) := by
    split at hi
    · exact hi
    · exact (List.drop_sublist _ _).subset hi
  have := argsort_mem_lt _ _ hmem
  simpa using this

/-- C1 (amended): for every query and every `k ≥ 1`, `search_similar` returns
`min k n` row indices (`n` the number of rows), sorted by descending
dot-product score with ties resolved by DESCENDING original row index (under
the stable-sort model of `np.argsort`, whose ascending tie order the final
`[::-1]` reversal flips). -/
theorem search_similar_topk (svc : Svc) (q : Vec) (k : ℕ) (hk : 1 ≤ k) :
    (search_similar svc q k).1.length = min k svc.embeddings.length ∧
    List.Pairwise (codeOrd (svc.embeddings.map (fun e => dot e q)))
      (search_similar svc q k).1 ∧
    ∀ i ∈ (search_similar svc q k).1, i < svc.embeddings.length := by
  refine ⟨?_, ?_, search_similar_indices_lt svc q k⟩
  · unfold search_similar
    have hlen := argsort_length (svc.embeddings.map (fun e => dot e q))
    simp only [List.length_reverse, if_neg (by omega : ¬ k = 0), List.length_drop, hlen]
    simp only [List.length_map] at hlen ⊢
    omega
  · unfold search_similar
    set s := svc.embeddings.map (fun e => dot e q) with hs
    simp only [if_neg (show ¬ k = 0 by omega)]
    set t := (argsort s).drop ((argsort s).length - k) with ht
    have hsorted : List.Pairwise (argRel s) t :=
      List.Pairwise.sublist (List.drop_sublist _ _) (argsort_sorted s)
    have hnodup : t.Nodup :=
      List.Pairwise.sublist (List.drop_sublist _ _) (argsort_nodup s)
    have hcomb : List.Pairwise (fun i j => argRel s i j ∧ i ≠ j) t := hsorted.and hnodup
    rw [List.pairwise_reverse]
    refine hcomb.imp ?_
    rintro i j ⟨hrel, hne⟩
    rcases hrel with hlt | ⟨heq, hle⟩
    · exact Or.inl hlt
    · exact Or.inr ⟨heq.symm, lt_of_le_of_ne hle hne⟩

/-- C1 counterexample: with rows 0 and 1 holding the same embedding and the
query aligned with them, `search_similar` returns the tied rows as `[1, 0]`,
which is not sorted under the claimed descending-score, ascending-index
order (that order would force `[0, 1]`). -/
theorem search_similar_tie_not_ascending :
    (search_similar svcTie [1, 0] 2).1 = [1, 0] ∧
    ¬ List.Pairwise (specOrd (svcTie.embeddings.map (fun e => dot e [1, 0])))
      (search_similar svcTie [1, 0] 2).1 := by
  constructor
  · with_unfolding_all decide
  · with_unfolding_all decide

theorem search_similar_topk_witness :
    1 ≤ 2 ∧
    ((search_similar svcTie [1, 0] 2).1.length = min 2 svcTie.embeddings.length ∧
    List.Pairwise (codeOrd (svcTie.embeddings.map (fun e => dot e [1, 0])))
      (search_similar svcTie [1, 0] 2).1 ∧
    ∀ i ∈ (search_similar svcTie [1, 0] 2).1, i < svcTie.embeddings.length) :=
  ⟨by decide, search_similar_topk svcTie [1, 0] 2 (by decide)⟩

theorem sumSq_cons (x : ℚ) (xs : Vec) : sumSq (x :: xs) = x * x + sumSq xs := by
  simp [sumSq]

theorem sumSq_nonneg (v : Vec) : 0 ≤ sumSq v := by
  induction v with
  | nil => simp [sumSq]
  | cons x xs ih =>
    rw [sumSq_cons]
    nlinarith [mul_self_nonneg x]

theorem sumSq_map_mul (v : Vec) (t : ℝ) :
    (((v.map (fun x : ℚ => (x : ℝ) * t)).map (fun x => x * x)).sum) =
      ((sumSq v : ℚ) : ℝ) * (t * t) := by
  induction v with
  | nil => simp [sumSq]
  | cons x xs ih =>
    simp only [List.map_cons, List.sum_cons, ih, sumSq_cons]
    push_cast
    ring

/-- C3 (amended): whenever `compute_taste_from_calibration` succeeds and the
pre-normalization taste vector `v` satisfies `sumSq v ≥ 1e-4` (that is,
`‖v‖ ≥ 0.01`), the epsilon-guarded normalization `v / (‖v‖ + 1e-8)` produces
a vector whose L2 norm is within `1e-6` of `1.0`.  Without the norm lower
bound the property fails (see the counterexample with a zero embedding). -/
theorem calibration_norm_after_normalization (svc : Svc)
    (liked disliked : List String) (v : Vec)
    (_hok : compute_taste_from_calibration svc liked disliked = .ok v)
    (hbig : (1 : ℚ) / 10000 ≤ sumSq v) :
    |1 - realNorm (rnormalize v)| ≤ 1 / 1000000 := by
  clear _hok
  set S : ℝ := ((sumSq v : ℚ) : ℝ) with hS
  have hS0 : (1 : ℝ) / 10000 ≤ S := by
    rw [hS]
    have h := (Rat.cast_le (K := ℝ)).mpr hbig
    push_cast at h
    linarith
  have hSnn : (0 : ℝ) ≤ S := by linarith
  set r : ℝ := Real.sqrt S with hr
  have hrnn : 0 ≤ r := Real.sqrt_nonneg S
  have hr100 : (1 : ℝ) / 100 ≤ r := by
    rw [hr]
    rw [show (1 : ℝ) / 100 = Real.sqrt ((1 / 100) ^ 2) from
      (Real.sqrt_sq (by norm_num)).symm]
    apply Real.sqrt_le_sqrt
    norm_num
    linarith
  set c : ℝ := r + 1e-8 with hc
  have hcpos : 0 < c := by
    rw [hc]
    have : (0 : ℝ) < 1e-8 := by norm_num
    linarith
  have hnorm : realNorm (rnormalize v) = r * c⁻¹ := by
    unfold realNorm rnormalize
    have hmap : v.map (fun x : ℚ => (x : ℝ) / (Real.sqrt ((sumSq v : ℚ) : ℝ) + 1e-8)) =
        v.map (fun x : ℚ => (x : ℝ) * c⁻¹) := by
      apply List.map_congr_left
      intro x _
      rw [div_eq_mul_inv, ← hS, ← hr, ← hc]
    rw [hmap, sumSq_map_mul, ← hS]
    have h2 : Real.sqrt S * Real.sqrt S = S := Real.mul_self_sqrt hSnn
    rw [show S * (c⁻¹ * c⁻¹) = (r * c⁻¹) * (r * c⁻¹) by
      rw [hr]
      linear_combination (-(c⁻¹ * c⁻¹)) * h2]
    exact Real.sqrt_mul_self (by positivity)
  rw [hnorm]
  have hrc : r * c⁻¹ ≤ 1 := by
    rw [mul_inv_le_iff₀ hcpos, one_mul, hc]
    norm_num
  have heq : 1 - r * c⁻¹ = (1e-8) * c⁻¹ := by
    field_simp
    rw [hc]
    ring
  rw [abs_of_nonneg (by linarith), heq]
  rw [mul_inv_le_iff₀ hcpos]
  rw [hc]
  norm_num
  linarith

/-- C3 counterexample: a liked product whose embedding is the zero vector is
resolvable, so the computation succeeds, but the epsilon guard leaves the
zero vector unscaled — the returned vector's norm is 0, not within `1e-6`
of 1.0. -/
theorem calibration_zero_vector_norm :
    compute_taste_from_calibration svcZeroEmb ["1"] [] = .ok [0, 0] ∧
    ¬ (|1 - realNorm (rnormalize [0, 0])| ≤ 1 / 1000000) := by
  constructor
  · with_unfolding_all decide
  · have h0 : sumSq [0, 0] = 0 := by norm_num [sumSq]
    have hmap : rnormalize [0, 0] = [0, 0] := by
      unfold rnormalize
      rw [h0]
      norm_num
    rw [hmap]
    unfold realNorm
    norm_num

theorem calibration_norm_witness :
    compute_taste_from_calibration svcUnitEmb ["1"] [] = .ok [1, 0] ∧
    (1 : ℚ) / 10000 ≤ sumSq [1, 0] ∧
    |1 - realNorm (rnormalize [1, 0])| ≤ 1 / 1000000 :=
  ⟨by with_unfolding_all decide, by with_unfolding_all decide,
   calibration_norm_after_normalization svcUnitEmb ["1"] [] [1, 0]
     (by with_unfolding_all decide) (by with_unfolding_all decide)⟩

theorem priceLow_false_le {pm : Option ℚ} {price : ℚ}
    (h : priceLow pm price = false) : ∀ m, pm = some m → m ≠ 0 → m ≤ price := by
  intro m hm hm0
  subst hm
  by_contra hlt
  push_neg at hlt
  simp [priceLow, hm0, hlt] at h

theorem priceHigh_false_le {pM : Option ℚ} {price : ℚ}
    (h : priceHigh pM price = false) : ∀ M, pM = some M → M ≠ 0 → price ≤ M := by
  intro M hM hM0
  subst hM
  by_contra hlt
  push_neg at hlt
  simp [priceHigh, hM0, hlt] at h

theorem giftUserLoop_inv (svc : Svc) (lowG highG : ℚ → Bool) :
    ∀ (cands : List (ℕ × ℚ)) (kLeft : ℕ) (seenCats : List String),
      (∀ s ∈ giftUserLoop svc lowG highG cands kLeft seenCats,
        s.category ∉ tabooCategories ∧ lowG s.price = false ∧
        highG s.price = false ∧ s.category ∉ seenCats) ∧
      (giftUserLoop svc lowG highG cands kLeft seenCats).Pairwise
        (fun a b => a.category ≠ b.category) := by
  intro cands
  induction cands with
  | nil =>
    intro kLeft seenCats
    simp [giftUserLoop]
  | cons hd rest ih =>
    intro kLeft seenCats
    obtain ⟨idx, score⟩ := hd
    simp only [giftUserLoop]
    cases hgp : get_product svc (idAt svc idx) with
    | none =>
      simp only [hgp]
      exact ih kLeft seenCats
    | some p =>
      simp only [hgp]
      by_cases h1 : p.category ∈ tabooCategories
      · simp only [if_pos h1]
        exact ih kLeft seenCats
      · simp only [if_neg h1]
        by_cases h2 : lowG p.price = true
        · simp only [if_pos h2]
          exact ih kLeft seenCats
        · simp only [if_neg h2]
          by_cases h3 : highG p.price = true
          · simp only [if_pos h3]
            exact ih kLeft seenCats
          · simp only [if_neg h3]
            by_cases h4 : p.category ∈ seenCats
            · simp only [if_pos h4]
              exact ih kLeft seenCats
            · simp only [if_neg h4]
              have h2f : lowG p.price = false := by
                simpa using h2
              have h3f : highG p.price = false := by
                simpa using h3
              by_cases hk : kLeft ≤ 1
              · simp only [if_pos hk]
                refine ⟨?_, by simp⟩
                intro s hs
                simp only [List.mem_singleton] at hs
                subst hs
                exact ⟨h1, h2f, h3f, h4⟩
              · simp only [if_neg hk]
                obtain ⟨ihmem, ihpair⟩ := ih (kLeft - 1) (p.category :: seenCats)
                constructor
                · intro s hs
                  rcases List.mem_cons.mp hs with hs | hs
                  · subst hs
                    exact ⟨h1, h2f, h3f, h4⟩
                  · obtain ⟨ha, hb, hc', hd'⟩ := ihmem s hs
                    exact ⟨ha, hb, hc', fun hmem => hd' (List.mem_cons_of_mem _ hmem)⟩
                · refine List.pairwise_cons.mpr ⟨?_, ihpair⟩
                  intro b hb
                  have := (ihmem b hb).2.2.2
                  intro hEq
                  exact this (hEq ▸ List.mem_cons_self _ _)

/-- C5 (amended): whenever a recipient has a (cached) taste profile, every
gift suggestion avoids the fixed taboo category set, the returned categories
are pairwise distinct, and each price respects a supplied priceMin/priceMax
bound whenever that bound is nonzero (a zero bound is falsy in the Python
guard and behaves as absent — see the counterexample). -/
theorem gift_suggestions_taboo_distinct_priced (svc : Svc)
    (recipient_user_id : String) (k : ℕ) (pm pM : Option ℚ)
    (suggs : List Sugg)
    (h : get_gift_suggestions_for_user svc recipient_user_id k pm pM = some suggs) :
    (∀ s ∈ suggs, s.category ∉ tabooCategories ∧
      (∀ m, pm = some m → m ≠ 0 → m ≤ s.price) ∧
      (∀ M, pM = some M → M ≠ 0 → s.price ≤ M)) ∧
    suggs.Pairwise (fun a b => a.category ≠ b.category) := by
  unfold get_gift_suggestions_for_user at h
  cases hc : svc.cache.lookup recipient_user_id with
  | none =>
    rw [hc] at h
    exact Option.noConfusion h
  | some taste =>
    rw [hc] at h
    have hinj := Option.some.inj h
    subst hinj
    obtain ⟨hmem, hpair⟩ :=
      giftUserLoop_inv svc (priceLow pm) (priceHigh pM)
        (searchPairs svc taste (k * 5)) k []
    refine ⟨?_, hpair⟩
    intro s hs
    obtain ⟨ha, hb, hc', _⟩ := hmem s hs
    exact ⟨ha, priceLow_false_le hb, priceHigh_false_le hc'⟩

/-- C5 counterexample: a supplied `price_max = 0` is falsy in the guard
`if price_max and price > price_max`, so an item priced 10 is still
returned even though 10 exceeds the supplied bound 0. -/
theorem gift_price_zero_bound_ignored :
    (get_gift_suggestions_for_user svcGift "u" 1 none (some 0)).map
      (fun l => l.map (fun s => s.price)) = some [10] ∧
    ¬ ((10 : ℚ) ≤ 0) := by
  constructor
  · with_unfolding_all decide
  · norm_num

theorem gift_suggestions_witness :
    get_gift_suggestions_for_user svcGift "u" 1 (some 5) none =
      some [⟨"1", "n", "Dress", "Red", 10, 1⟩] ∧
    ((∀ s ∈ [(⟨"1", "n", "Dress", "Red", 10, 1⟩ : Sugg)],
        s.category ∉ tabooCategories ∧
        (∀ m, (some 5 : Option ℚ) = some m → m ≠ 0 → m ≤ s.price) ∧
        (∀ M, (none : Option ℚ) = some M → M ≠ 0 → s.price ≤ M)) ∧
      List.Pairwise (fun a b => a.category ≠ b.category)
        [(⟨"1", "n", "Dress", "Red", 10, 1⟩ : Sugg)]) :=
  ⟨by with_unfolding_all decide,
   gift_suggestions_taboo_distinct_priced svcGift "u" 1 (some 5) none
     [⟨"1", "n", "Dress", "Red", 10, 1⟩] (by with_unfolding_all decide)⟩

theorem getD_mem_or_default {α : Type} (l : List α) (i : ℕ) (d : α) :
    l.getD i d ∈ l ∨ l.getD i d = d := by
  induction l generalizing i with
  | nil => right; simp
  | cons x xs ih =>
    cases i with
    | zero => left; simp
    | succ n =>
      rcases ih n with h | h
      · left
        simp only [List.getD_cons_succ]
        exact List.mem_cons_of_mem _ h
      · right
        simpa using h

theorem lstrip0_empty : lstrip0 "" = "" := rfl

theorem lstrip0_idAt (svc : Svc)
    (hids : ∀ pid ∈ svc.idx_to_id, lstrip0 pid = pid) (i : ℕ) :
    lstrip0 (idAt svc i) = idAt svc i := by
  unfold idAt
  rcases getD_mem_or_default svc.idx_to_id i "" with h | h
  · exact hids _ h
  · rw [h]
    exact lstrip0_empty

theorem get_product_id {svc : Svc} {pid : String} {p : Product}
    (h : get_product svc pid = some p) : p.id = lstrip0 pid := by
  unfold get_product at h
  have := List.find?_some h
  simpa using this

theorem altLoop_no_self (svc : Svc) (strippedId sourceCat sourceColor : String)
    (hid : ∀ i, lstrip0 (idAt svc i) = idAt svc i) :
    ∀ (cands : List (ℕ × ℚ)) (kLeft : ℕ),
      ∀ a ∈ altLoop svc strippedId sourceCat sourceColor cands kLeft,
        a.prod.id ≠ strippedId := by
  intro cands
  induction cands with
  | nil =>
    intro kLeft
    simp [altLoop]
  | cons hd rest ih =>
    intro kLeft
    obtain ⟨idx, score⟩ := hd
    simp only [altLoop]
    by_cases hself : idAt svc idx == strippedId
    · simp only [if_pos hself]
      exact ih kLeft
    · simp only [if_neg hself]
      cases hgp : get_product svc (idAt svc idx) with
      | none =>
        simp only [hgp]
        exact ih kLeft
      | some p =>
        simp only [hgp]
        have hpid : p.id = idAt svc idx := (get_product_id hgp).trans (hid idx)
        have hne : idAt svc idx ≠ strippedId := by
          intro hEq
          exact hself (by simp [hEq])
        by_cases hk : kLeft ≤ 1
        · simp only [if_pos hk]
          intro a ha
          simp only [List.mem_singleton] at ha
          subst ha
          simpa [hpid] using hne
        · simp only [if_neg hk]
          intro a ha
          rcases List.mem_cons.mp ha with ha | ha
          · subst ha
            simpa [hpid] using hne
          · exact ih (kLeft - 1) a ha

/-- C6: `get_alternatives` surfaces a missing seed product or missing seed
embedding as an explicit error result, and in the success case no returned
alternative is the seed product itself, comparing ids after leading-zero
normalization (the loaded `idx_to_id` values are already in normalized
form, which is the hypothesis `hids`). -/
theorem alternatives_error_and_no_self (svc : Svc) (product_id : String) (k : ℕ)
    (hids : ∀ pid ∈ svc.idx_to_id, lstrip0 pid = pid) :
    (get_product svc product_id = none →
      get_alternatives svc product_id k = .error "Product not found") ∧
    (∀ src, get_product svc product_id = some src →
      get_embedding svc product_id = none →
        get_alternatives svc product_id k = .error "No embedding for product") ∧
    (∀ src alts, get_alternatives svc product_id k = .ok (src, alts) →
      ∀ a ∈ alts, a.prod.id ≠ lstrip0 product_id) := by
  refine ⟨?_, ?_, ?_⟩
  · intro h
    unfold get_alternatives
    rw [h]
  · intro src hsrc hemb
    unfold get_alternatives
    rw [hsrc, hemb]
  · intro src alts hok a ha
    unfold get_alternatives at hok
    cases hgp : get_product svc product_id with
    | none =>
      rw [hgp] at hok
      exact Except.noConfusion hok
    | some source =>
      rw [hgp] at hok
      cases hge : get_embedding svc product_id with
      | none =>
        rw [hge] at hok
        exact Except.noConfusion hok
      | some emb =>
        rw [hge] at hok
        have := Except.ok.inj hok
        have halts : alts = altLoop svc (lstrip0 product_id) source.category
            source.color (searchPairs svc emb (k * 2)) k := by
          have := congrArg Prod.snd this.symm
          simpa using this
        subst halts
        exact altLoop_no_self svc (lstrip0 product_id) source.category
          source.color (lstrip0_idAt svc hids) _ k a ha

theorem alternatives_witness :
    (∀ pid ∈ svcAlt.idx_to_id, lstrip0 pid = pid) ∧
    ((get_product svcAlt "01" = none →
      get_alternatives svcAlt "01" 1 = .error "Product not found") ∧
    (∀ src, get_product svcAlt "01" = some src →
      get_embedding svcAlt "01" = none →
        get_alternatives svcAlt "01" 1 = .error "No embedding for product") ∧
    (∀ src alts, get_alternatives svcAlt "01" 1 = .ok (src, alts) →
      ∀ a ∈ alts, a.prod.id ≠ lstrip0 "01")) :=
  ⟨by decide, alternatives_error_and_no_self svcAlt "01" 1 (by decide)⟩

theorem catalogColdLoop_length (svc : Svc) :
    ∀ es : List PopEntry,
      (∀ e ∈ es, get_product svc (lstrip0 (popPid e)) ≠ none) →
      (catalogColdLoop svc es).length = es.length := by
  intro es
  induction es with
  | nil => intro _; rfl
  | cons e rest ih =>
    intro hres
    simp only [catalogColdLoop]
    cases hgp : get_product svc (lstrip0 (popPid e)) with
    | none => exact absurd hgp (hres e (List.mem_cons_self _ _))
    | some p =>
      simp only [hgp, List.length_cons]
      rw [ih (fun x hx => hres x (List.mem_cons_of_mem _ hx))]

theorem catalogColdLoop_scores (svc : Svc) :
    ∀ es : List PopEntry, ∀ it ∈ catalogColdLoop svc es,
      ∃ e ∈ es, it.2 = some (popScore e) := by
  intro es
  induction es with
  | nil => simp [catalogColdLoop]
  | cons e rest ih =>
    intro it hit
    simp only [catalogColdLoop] at hit
    cases hgp : get_product svc (lstrip0 (popPid e)) with
    | none =>
      rw [hgp] at hit
      obtain ⟨x, hx, hs⟩ := ih it hit
      exact ⟨x, List.mem_cons_of_mem _ hx, hs⟩
    | some p =>
      rw [hgp] at hit
      rcases List.mem_cons.mp hit with hit | hit
      · subst hit
        exact ⟨e, List.mem_cons_self _ _, rfl⟩
      · obtain ⟨x, hx, hs⟩ := ih it hit
        exact ⟨x, List.mem_cons_of_mem _ hx, hs⟩

theorem discoverySec1Cold_noscore (svc : Svc) :
    ∀ es : List PopEntry, ∀ it ∈ discoverySec1Cold svc es, it.2 = none := by
  intro es
  induction es with
  | nil => simp [discoverySec1Cold]
  | cons e rest ih =>
    intro it hit
    simp only [discoverySec1Cold] at hit
    cases e with
    | entry pid score => exact ih it hit
    | plain pid =>
      have hit' : it ∈ (match get_product svc pid with
          | some p => ((p, (none : Option ℚ)) : RecItem) :: discoverySec1Cold svc rest
          | none => discoverySec1Cold svc rest) := hit
      cases hgp : get_product svc pid with
      | none =>
        rw [hgp] at hit'
        exact ih it hit'
      | some p =>
        rw [hgp] at hit'
        rcases List.mem_cons.mp hit' with hit' | hit'
        · subst hit'
          rfl
        · exact ih it hit'

theorem discoverySec1Cold_length_le (svc : Svc) :
    ∀ es : List PopEntry, (discoverySec1Cold svc es).length ≤ es.length := by
  intro es
  induction es with
  | nil => simp [discoverySec1Cold]
  | cons e rest ih =>
    simp only [discoverySec1Cold]
    cases e with
    | entry pid score => exact Nat.le_succ_of_le ih
    | plain pid =>
      show (match get_product svc pid with
            | some p => ((p, (none : Option ℚ)) : RecItem) :: discoverySec1Cold svc rest
            | none => discoverySec1Cold svc rest).length ≤ rest.length + 1
      cases get_product svc pid with
      | none => exact Nat.le_succ_of_le ih
      | some p => simpa using Nat.succ_le_succ ih

/-- C7 (amended): on the cold-start path, `get_personalized_catalog` returns
exactly `min k (len popular_products)` items — provided every popularity
entry resolves to a product; unresolvable entries are silently dropped —
each carrying the list-provided affinity score or the neutral `0.5`; the
discovery feed's first-section cold-start path, by contrast, returns at most
5 items and attaches NO affinity score to them (see the counterexample). -/
theorem cold_start_counts_and_scores (svc : Svc) (user_id : String) (k : ℕ)
    (varied : Vec)
    (hcold : svc.cache.lookup user_id = none)
    (hres : ∀ e ∈ svc.popular_products, get_product svc (lstrip0 (popPid e)) ≠ none) :
    (get_personalized_catalog svc user_id k none none none).is_cold_start = true ∧
    (get_personalized_catalog svc user_id k none none none).products.length =
      min k svc.popular_products.length ∧
    (∀ it ∈ (get_personalized_catalog svc user_id k none none none).products,
      ∃ e ∈ svc.popular_products, it.2 = some (popScore e)) ∧
    (∀ it ∈ discoverySection1 svc varied user_id, it.2 = none) ∧
    (discoverySection1 svc varied user_id).length ≤ 5 := by
  unfold get_personalized_catalog discoverySection1
  rw [hcold]
  refine ⟨rfl, ?_, ?_, ?_, ?_⟩
  · simp only []
    rw [catalogColdLoop_length svc _
      (fun e he => hres e (List.take_subset k _ he))]
    exact List.length_take k _
  · intro it hit
    obtain ⟨e, he, hs⟩ := catalogColdLoop_scores svc _ it hit
    exact ⟨e, List.take_subset k _ he, hs⟩
  · intro it hit
    exact discoverySec1Cold_noscore svc _ it hit
  · refine le_trans (discoverySec1Cold_length_le svc _) ?_
    rw [List.length_take]
    exact min_le_left _ _

/-- C7 counterexample: the discovery feed's first section takes the
cold-start path for a profile-less user, and its items carry no affinity
score at all (`affinity = none`), contradicting the claim that every
cold-start operation assigns a defined score. -/
theorem discovery_cold_start_lacks_affinity :
    get_discovery_feed svcPop [] "u" =
      [⟨"Just For Today", "personalized", [(prodW, none)]⟩,
       ⟨"New Arrivals in Your Style", "new_arrivals", []⟩,
       ⟨"Trending", "trending", []⟩] := by
  with_unfolding_all decide

theorem cold_start_witness :
    svcPop.cache.lookup "u" = none ∧
    ((get_personalized_catalog svcPop "u" 3 none none none).is_cold_start = true ∧
    (get_personalized_catalog svcPop "u" 3 none none none).products.length =
      min 3 svcPop.popular_products.length ∧
    (∀ it ∈ (get_personalized_catalog svcPop "u" 3 none none none).products,
      ∃ e ∈ svcPop.popular_products, it.2 = some (popScore e)) ∧
    (∀ it ∈ discoverySection1 svcPop [] "u", it.2 = none) ∧
    (discoverySection1 svcPop [] "u").length ≤ 5) :=
  ⟨rfl, cold_start_counts_and_scores svcPop "u" 3 [] rfl
    (by with_unfolding_all decide)⟩

theorem discoverySec2Loop_not_seen (svc : Svc)
    (hid : ∀ i, lstrip0 (idAt svc i) = idAt svc i) :
    ∀ (cands : List (ℕ × ℚ)) (kLeft : ℕ) (seen : List String),
      ∀ it ∈ discoverySec2Loop svc cands kLeft seen, it.1.id ∉ seen := by
  intro cands
  induction cands with
  | nil =>
    intro kLeft seen
    simp [discoverySec2Loop]
  | cons hd rest ih =>
    intro kLeft seen
    obtain ⟨idx, score⟩ := hd
    simp only [discoverySec2Loop]
    by_cases hseen : idAt svc idx ∈ seen
    · simp only [if_pos hseen]
      exact ih kLeft seen
    · simp only [if_neg hseen]
      cases hgp : get_product svc (idAt svc idx) with
      | none =>
        simp only [hgp]
        exact ih kLeft seen
      | some p =>
        simp only [hgp]
        have hpid : p.id = idAt svc idx := (get_product_id hgp).trans (hid idx)
        by_cases hk : kLeft ≤ 1
        · simp only [if_pos hk]
          intro it hit
          simp only [List.mem_singleton] at hit
          subst hit
          simpa [hpid] using hseen
        · simp only [if_neg hk]
          intro it hit
          rcases List.mem_cons.mp hit with hit | hit
          · subst hit
            simpa [hpid] using hseen
          · have := ih (kLeft - 1) (idAt svc idx :: seen) it hit
            exact fun hmem => this (List.mem_cons_of_mem _ hmem)

/-- C8: the discovery feed always consists of exactly the three fixed,
ordered sections with their fixed titles and types, and (with `idx_to_id`
values in normalized form) no product id appearing in section 1 appears in
section 2, because section 2 starts its seen-set from section 1's ids. -/
theorem discovery_fixed_sections_disjoint (svc : Svc) (varied : Vec)
    (user_id : String)
    (hids : ∀ pid ∈ svc.idx_to_id, lstrip0 pid = pid) :
    (get_discovery_feed svc varied user_id).map (fun s => s.title) =
      ["Just For Today", "New Arrivals in Your Style", "Trending"] ∧
    (get_discovery_feed svc varied user_id).map (fun s => s.sectionType) =
      ["personalized", "new_arrivals", "trending"] ∧
    (∀ s1 s2 s3, get_discovery_feed svc varied user_id = [s1, s2, s3] →
      ∀ p1 ∈ s1.products, ∀ p2 ∈ s2.products, p1.1.id ≠ p2.1.id) := by
  refine ⟨rfl, rfl, ?_⟩
  intro s1 s2 s3 hfeed p1 hp1 p2 hp2
  unfold get_discovery_feed at hfeed
  obtain ⟨h1, h2, _⟩ : s1 = ⟨"Just For Today", "personalized",
      discoverySection1 svc varied user_id⟩ ∧
      s2 = ⟨"New Arrivals in Your Style", "new_arrivals",
        discoverySection2 svc user_id
          ((discoverySection1 svc varied user_id).map (fun it => it.1.id))⟩ ∧
      s3 = ⟨"Trending", "trending", discoverySection3 svc⟩ := by
    have e1 := congrArg (fun l => List.getD l 0 ⟨"", "", []⟩) hfeed.symm
    have e2 := congrArg (fun l => List.getD l 1 ⟨"", "", []⟩) hfeed.symm
    have e3 := congrArg (fun l => List.getD l 2 ⟨"", "", []⟩) hfeed.symm
    simp only [List.getD_cons_zero, List.getD_cons_succ] at e1 e2 e3
    exact ⟨e1, e2, e3⟩
  subst h1
  subst h2
  have hmem1 : p1.1.id ∈
      (discoverySection1 svc varied user_id).map (fun it => it.1.id) :=
    List.mem_map_of_mem _ hp1
  unfold discoverySection2 at hp2
  cases hc : svc.cache.lookup user_id with
  | none =>
    rw [hc] at hp2
    simp at hp2
  | some taste =>
    rw [hc] at hp2
    have := discoverySec2Loop_not_seen svc (lstrip0_idAt svc hids) _ 5 _ p2 hp2
    intro hEq
    exact this (hEq ▸ hmem1)

theorem discovery_sections_witness :
    (∀ pid ∈ svcGift.idx_to_id, lstrip0 pid = pid) ∧
    ((get_discovery_feed svcGift [1] "u").map (fun s => s.title) =
      ["Just For Today", "New Arrivals in Your Style", "Trending"] ∧
    (get_discovery_feed svcGift [1] "u").map (fun s => s.sectionType) =
      ["personalized", "new_arrivals", "trending"] ∧
    (∀ s1 s2 s3, get_discovery_feed svcGift [1] "u" = [s1, s2, s3] →
      ∀ p1 ∈ s1.products, ∀ p2 ∈ s2.products, p1.1.id ≠ p2.1.id)) :=
  ⟨by decide, discovery_fixed_sections_disjoint svcGift [1] "u" (by decide)⟩

end ShopperOS
